import Mathlib

/-!
Verification of the configuration-resolution and session-management engine of
the tgf repository (config.go) against its natural-language specification.

The Go source is shallowly embedded: pure helpers become Lean functions over
`String`/`List Char`; the process-lifetime caches (`cachedAWSConfigExistCheck`,
`cachedAwsConfig`) become explicitly threaded state; calls into the AWS SDK
become an oracle record (`AwsWorld`) whose fields stand for the network
responses; fallible operations return `Except`.  External library behaviour
(Go standard library string/path helpers, blang/semver, gotemplate string
utilities, crypto/md5) is modelled at the fragment exercised by config.go,
as documented on each definition.
-/

namespace TGF

/-! ## Character-list utilities

Executable models of the Go standard-library string helpers used by
config.go (`strings.Contains`, `strings.Count`, `strings.Split`-style
splitting, `filepath.Base`, `filepath.Dir`). -/

def isDigitCh (c : Char) : Bool := '0' ≤ c && c ≤ '9'

/-- Model of `strings.ContainsRune`-style single-character containment. -/
def containsCh (c : Char) (l : List Char) : Bool := l.any (· = c)

/-- Split a character list on a single-character separator (model of
`strings.Split` with a one-character separator). -/
def splitOnChar (sep : Char) : List Char → List (List Char)
  | [] => [[]]
  | c :: rest =>
    let r := splitOnChar sep rest
    if c = sep then [] :: r
    else
      match r with
      | [] => [[c]]
      | h :: t => (c :: h) :: t

/-- Model of `strings.Contains`: does `l` contain `sep` as a contiguous
substring? -/
def containsSub (sep : List Char) : List Char → Bool
  | [] => decide (sep = [])
  | c :: rest => sep.isPrefixOf (c :: rest) || containsSub sep rest

/-- Fuel-driven worker for `splitOnSub`; the fuel is the length of the input,
which suffices because every step consumes at least one character. -/
def splitOnSubF (sep : List Char) : Nat → List Char → List Char → List (List Char)
  | 0, l, cur => [cur.reverse ++ l]
  | fuel + 1, l, cur =>
    match l with
    | [] => [cur.reverse]
    | c :: rest =>
      if sep.isPrefixOf (c :: rest) && !sep.isEmpty then
        cur.reverse :: splitOnSubF sep fuel ((c :: rest).drop sep.length) []
      else
        splitOnSubF sep fuel rest (c :: cur)

/-- Model of `strings.Split` with a multi-character separator. -/
def splitOnSub (sep l : List Char) : List (List Char) := splitOnSubF sep l.length l []

/-- Model of `filepath.Base` for slash-separated paths: strip trailing
slashes, then keep everything after the last remaining slash.  (The
`filepath.Clean` dot-segment normalization is not needed by the inputs the
repository feeds through this helper, which are plain config-file paths.) -/
def baseNameCL (l : List Char) : List Char :=
  if l.isEmpty then ['.']
  else
    let trimmed := (l.reverse.dropWhile (· = '/')).reverse
    if trimmed.isEmpty then ['/']
    else (trimmed.reverse.takeWhile (· ≠ '/')).reverse

def baseName (s : String) : String := ⟨baseNameCL s.data⟩

/-- Model of `filepath.Dir` for slash-separated paths: everything up to the
last slash, with trailing slashes removed; `"."` when there is no slash. -/
def dirNameCL (l : List Char) : List Char :=
  let keep := (l.reverse.dropWhile (· ≠ '/')).reverse
  if keep.isEmpty then ['.']
  else
    let trimmed := (keep.reverse.dropWhile (· = '/')).reverse
    if trimmed.isEmpty then ['/'] else trimmed

def dirName (s : String) : String := ⟨dirNameCL s.data⟩

/-! ## C8: GetImageName (config.go lines 499-515) -/

/-- `tagSeparator` constant from config.go. -/
def tagSeparator : String := "-"

/-- Embedding of `TGFConfig.GetImageName` (config.go lines 499-515):
build the suffix from the optional image version and optional image tag,
inserting `tagSeparator` only when both parts are non-empty, and attach the
suffix to the image with a colon only when it is longer than one character. -/
def GetImageName (image : String) (imageVersion imageTag : Option String) : String :=
  let suffix :=
    match imageVersion with
    | some v => v
    | none => ""
  let suffix :=
    match imageTag with
    | some t => (if suffix ≠ "" && t ≠ "" then suffix ++ tagSeparator else suffix) ++ t
    | none => suffix
  if suffix.length > 1 then image ++ ":" ++ suffix else image

/-- The composition rule exactly as the specification words it: version and
tag joined with a hyphen only when both are non-empty (second definition of
the same computation, kept for the refinement comparison with
`GetImageName`). -/
def specImageSuffix (v t : String) : String :=
  if v ≠ "" && t ≠ "" then v ++ "-" ++ t else v ++ t

/-! ## C9: awsConfigExist (config.go lines 636-674) -/

/-- The environment observed by one call of `awsConfigExist`: the
`--aws`/`UseAWS` application flag, the four environment variables whose
concatenation is tested, whether `exec.LookPath("aws")` succeeds, whether
`user.Current()` succeeds, and the result of `os.Stat` on `~/.aws`
(`none` = stat error, `some b` = stat succeeded and `IsDir()` = `b`). -/
structure AwsCheckEnv where
  useAWS : Bool
  awsProfile : String
  awsAccessKeyID : String
  awsConfigFile : String
  tgfUseAwsConfig : String
  awsCliOnPath : Bool
  currentUserOk : Bool
  awsFolderStat : Option Bool
deriving Repr, DecidableEq

/-- The uncached body of `awsConfigExist` (config.go lines 641-673). -/
def computeAwsConfigExist (e : AwsCheckEnv) : Bool :=
  if !e.useAWS then false
  else if e.awsProfile ++ e.awsAccessKeyID ++ e.awsConfigFile ++ e.tgfUseAwsConfig ≠ "" then true
  else if e.awsCliOnPath then true
  else
    e.currentUserOk &&
      (match e.awsFolderStat with
       | some b => b
       | none => false)

/-- Embedding of `awsConfigExist` (config.go lines 636-674) with the
process-global `cachedAWSConfigExistCheck` threaded explicitly: returns the
boolean result together with the cache after the call (the deferred
`cachedAWSConfigExistCheck = &result` assignment). -/
def awsConfigExist (cache : Option Bool) (e : AwsCheckEnv) : Bool × Option Bool :=
  match cache with
  | some b => (b, some b)
  | none =>
    let r := computeAwsConfigExist e
    (r, some r)

/-- A sequence of `awsConfigExist` calls, each observing its own environment,
with the cache threaded through (models repeated calls within one process
while the outside environment may change). -/
def awsConfigExistCalls (cache : Option Bool) : List AwsCheckEnv → List Bool
  | [] => []
  | e :: es =>
    let p := awsConfigExist cache e
    p.1 :: awsConfigExistCalls p.2 es

/-! ## C2 / C3: the cumulative-list part of setDefaultValues
(config.go lines 392-416) -/

/-- `TGFConfigBuild` from config.go (lines 82-88). -/
structure TGFConfigBuild where
  Instructions : String
  Folder : String
  Tag : String
  source : String
deriving Repr, DecidableEq

/-- The fields of one parsed configuration layer that the cumulative loop of
`setDefaultValues` reads. -/
structure PartialLayer where
  imageBuild : String
  imageBuildFolder : String
  imageBuildTag : String
  runBefore : String
  runAfter : String
deriving Repr, DecidableEq

/-- One entry of the `configsData` slice: the layer name plus its parsed
configuration, `none` when unmarshalling left the `Config` pointer nil. -/
structure ConfigData where
  name : String
  config : Option PartialLayer
deriving Repr, DecidableEq

/-- The three accumulated lists of `TGFConfig` that the loop mutates. -/
structure SpecialLists where
  imageBuildConfigs : List TGFConfigBuild
  runBeforeCommands : List String
  runAfterCommands : List String
deriving Repr, DecidableEq

/-- One iteration of the loop at config.go lines 393-413: a non-empty
`ImageBuild` is prepended (`append([]TGFConfigBuild{{...}}, ...)`), a
non-empty `RunBefore` and `RunAfter` are appended. -/
def accumulateStep (st : SpecialLists) (cd : ConfigData) : SpecialLists :=
  match cd.config with
  | none => st
  | some c =>
    let st1 :=
      if c.imageBuild ≠ "" then
        { st with imageBuildConfigs :=
            ⟨c.imageBuild, c.imageBuildFolder, c.imageBuildTag, cd.name⟩ :: st.imageBuildConfigs }
      else st
    let st2 :=
      if c.runBefore ≠ "" then
        { st1 with runBeforeCommands := st1.runBeforeCommands ++ [c.runBefore] }
      else st1
    if c.runAfter ≠ "" then
      { st2 with runAfterCommands := st2.runAfterCommands ++ [c.runAfter] }
    else st2

/-- Embedding of the cumulative-list phase of `setDefaultValues`
(config.go lines 392-416): fold the loop over the ordered `configsData`
(least-specific layer first, as produced by `findConfigFiles`), then reverse
the run-before list (line 415). -/
def setDefaultValuesSpecials (configs : List ConfigData) (st0 : SpecialLists) : SpecialLists :=
  { imageBuildConfigs := (configs.foldl accumulateStep st0).imageBuildConfigs
    runBeforeCommands := (configs.foldl accumulateStep st0).runBeforeCommands.reverse
    runAfterCommands := (configs.foldl accumulateStep st0).runAfterCommands }

/-- The build entry a layer contributes, if any. -/
def toBuild (cd : ConfigData) : Option TGFConfigBuild :=
  match cd.config with
  | none => none
  | some c =>
    if c.imageBuild ≠ "" then some ⟨c.imageBuild, c.imageBuildFolder, c.imageBuildTag, cd.name⟩
    else none

/-- The run-before command a layer contributes, if any. -/
def toRunBefore (cd : ConfigData) : Option String :=
  match cd.config with
  | none => none
  | some c => if c.runBefore ≠ "" then some c.runBefore else none

/-- The run-after command a layer contributes, if any. -/
def toRunAfter (cd : ConfigData) : Option String :=
  match cd.config with
  | none => none
  | some c => if c.runAfter ≠ "" then some c.runAfter else none

/-- The run-before command of a layer known to contribute one. -/
def runBeforeOf (cd : ConfigData) : String :=
  match cd.config with
  | none => ""
  | some c => c.runBefore

/-- The run-after command of a layer known to contribute one. -/
def runAfterOf (cd : ConfigData) : String :=
  match cd.config with
  | none => ""
  | some c => c.runAfter

/-- The empty accumulator with which `InitConfig` (config.go lines 140-149)
starts: `imageBuildConfigs: []TGFConfigBuild{}` and nil command slices. -/
def emptySpecials : SpecialLists := ⟨[], [], []⟩

/-! ## Semantic-version model

Model of the fragment of the external `blang/semver` library exercised by
`CheckVersionRange` and `validate`: three-component numeric versions
(`MAJOR.MINOR.PATCH`) and space-separated AND-ranges of comparators.
Pre-release/build suffixes, wildcard components and `||`-ranges, which the
repository never feeds through these paths, are not modelled; on the inputs
the repository constructs, parsing succeeds or fails exactly as the library
does. -/

/-- Parse a numeric version component as blang/semver does: non-empty,
digits only, no leading zero unless the component is exactly `0`. -/
def parseNumStrict (l : List Char) : Option Nat :=
  if l.isEmpty then none
  else if !l.all isDigitCh then none
  else if l.length > 1 && l.head? = some '0' then none
  else some (l.foldl (fun n c => n * 10 + (c.toNat - 48)) 0)

structure SemVer where
  major : Nat
  minor : Nat
  patch : Nat
deriving Repr, DecidableEq

/-- Model of `semver.Make`: accept exactly `MAJOR.MINOR.PATCH` with numeric
components. -/
def semverMake (s : String) : Option SemVer :=
  match splitOnChar '.' s.data with
  | [a, b, c] => do
    let ma ← parseNumStrict a
    let mi ← parseNumStrict b
    let pa ← parseNumStrict c
    pure ⟨ma, mi, pa⟩
  | _ => none

/-- Strict lexicographic order on versions (numeric components only). -/
def semverLt (v w : SemVer) : Bool :=
  v.major < w.major ||
    (v.major = w.major &&
      (v.minor < w.minor || (v.minor = w.minor && v.patch < w.patch)))

inductive CompOp
  | ge
  | gt
  | le
  | lt
  | eqOp
  | neOp
deriving Repr, DecidableEq

def evalComp (op : CompOp) (v w : SemVer) : Bool :=
  match op with
  | .gt => semverLt w v
  | .ge => !semverLt v w
  | .lt => semverLt v w
  | .le => !semverLt w v
  | .eqOp => v = w
  | .neOp => v ≠ w

/-- Split one comparator token into its operator and version part
(`>=`, `<=`, `==`, `!=`, `>`, `<`, `=`; a bare version means equality). -/
def splitComparatorVersion (l : List Char) : CompOp × List Char :=
  if ['>', '='].isPrefixOf l then (.ge, l.drop 2)
  else if ['<', '='].isPrefixOf l then (.le, l.drop 2)
  else if ['=', '='].isPrefixOf l then (.eqOp, l.drop 2)
  else if ['!', '='].isPrefixOf l then (.neOp, l.drop 2)
  else if ['>'].isPrefixOf l then (.gt, l.drop 1)
  else if ['<'].isPrefixOf l then (.lt, l.drop 1)
  else if ['='].isPrefixOf l then (.eqOp, l.drop 1)
  else (.eqOp, l)

/-- Split on spaces, dropping empty parts (model of the whitespace
tokenization `semver.ParseRange` applies to a range string). -/
def fieldsCL (l : List Char) : List (List Char) :=
  (splitOnChar ' ' l).filter (fun p => !p.isEmpty)

/-- Model of `semver.ParseRange` on AND-ranges: every space-separated token
must parse as comparator + version, the range is their conjunction. -/
def parseRange (s : String) : Option (List (CompOp × SemVer)) :=
  match fieldsCL s.data with
  | [] => none
  | parts =>
    parts.mapM (fun p =>
      let q := splitComparatorVersion p
      (semverMake ⟨q.2⟩).map (fun v => (q.1, v)))

/-- The body of `CheckVersionRange` after the padding step: make the
version, parse the range, each failure surfacing as an error; otherwise
apply the range. -/
def checkCVR (version compare : String) : Except String Bool :=
  match semverMake version with
  | none => .error ("cannot parse version " ++ version)
  | some v =>
    match parseRange compare with
    | none => .error ("cannot parse range " ++ compare)
    | some comps => .ok (comps.all fun c => evalComp c.1 v c.2)

/-- Embedding of `CheckVersionRange` (config.go lines 709-726): a version
with exactly one dot (`strings.Count(version, ".") == 1`) is padded with
`".9999"` before parsing, patch being irrelevant when major and minor are
given; then the version and range are checked via `checkCVR`. -/
def CheckVersionRange (version compare : String) : Except String Bool :=
  checkCVR (if version.data.count '.' = 1 then version ++ ".9999" else version) compare

def exceptIsError {ε α : Type} : Except ε α → Bool
  | .error _ => true
  | .ok _ => false

/-! ## C5: validate and ValidateVersion (config.go lines 424-490)

Findings are modelled by their classification only (the Go error types
`ConfigWarning`, `VersionMistmatchError` and generic `error`); the message
strings, which `ValidateVersion` never inspects, are dropped. -/

inductive Finding
  | warning
  | mismatch
  | hardError
deriving Repr, DecidableEq

/-- Modelled from the spec: the sentinel the build system stores in the
global `version` variable for an unversioned local build (`locallyBuilt` is
defined outside the provided source files); only (in)equality with the
running tool version matters. -/
def locallyBuilt : String := "(locally built)"

/-- The fields of `TGFConfig` that `validate` reads. -/
structure VTGFConfig where
  Image : String
  ImageVersion : Option String
  ImageTag : Option String
  RecommendedImageVersion : String
  RequiredVersionRange : String
  RecommendedTGFVersion : String
deriving Repr, DecidableEq

/-- Does a `\d+/` occurrence start at the head of `l` (maximal digit run
followed by a slash)? Returns the matched length. -/
def digitsThenSlash (l : List Char) : Option Nat :=
  let ds := l.takeWhile isDigitCh
  if ds.isEmpty then none
  else
    match l.drop ds.length with
    | '/' :: _ => some (ds.length + 1)
    | _ => none

/-- Does a `:\d+/` occurrence start at the head of `l`? -/
def matchPortAt (l : List Char) : Option Nat :=
  match l with
  | ':' :: rest => (digitsThenSlash rest).map (· + 1)
  | _ => none

/-- End position (exclusive) of the last-starting `:\d+/` occurrence.
Occurrences cannot nest (a digit run contains no colon), so the
last-starting occurrence also has the maximal end. -/
def lastPortEnd : List Char → Option Nat
  | [] => none
  | c :: rest =>
    match lastPortEnd rest with
    | some e => some (e + 1)
    | none => matchPortAt (c :: rest)

/-- Model of `regexp.MustCompile(".*:\\d+/").ReplaceAllString(image, "")`
(config.go line 428): the greedy leading `.*` makes the single leftmost
match span from the start of the string to the end of the last `:\d+/`
occurrence, so the replacement removes that whole prefix. -/
def removePort (l : List Char) : List Char :=
  match lastPortEnd l with
  | some e => l.drop e
  | none => l

/-- Model of `reVersion.MatchString` for the unanchored pattern
`\d+\.\d+(\.\d+)?` (config.go line 418): the string matches iff it contains
a digit, a dot and a digit consecutively (one digit on each side suffices,
and the optional patch group never blocks a match). -/
def hasVerTriple : List Char → Bool
  | [] => false
  | [_] => false
  | [_, _] => false
  | a :: b :: c :: rest =>
    (isDigitCh a && b = '.' && isDigitCh c) || hasVerTriple (b :: c :: rest)

def reVersionMatch (s : String) : Bool := hasVerTriple s.data

/-- Rule 1 of `validate` (config.go lines 425-432): image name containing a
colon after stripping a registry-port prefix. -/
def imageNameWarning (c : VTGFConfig) : List Finding :=
  if containsCh ':' c.Image.data then
    if containsCh ':' (removePort c.Image.data) then [.warning] else []
  else []

/-- Rule 2 of `validate` (config.go lines 434-436): image-version field
containing a colon or hyphen. -/
def imageVersionWarning (c : VTGFConfig) : List Finding :=
  match c.ImageVersion with
  | some v => if containsCh ':' v.data || containsCh '-' v.data then [.warning] else []
  | none => []

/-- Rule 3 of `validate` (config.go lines 438-440): image-tag field
containing a colon. -/
def imageTagWarning (c : VTGFConfig) : List Finding :=
  match c.ImageTag with
  | some t => if containsCh ':' t.data then [.warning] else []
  | none => []

/-- Rule 4 of `validate` (config.go lines 442-448): recommended tool
version, checked unless the binary is locally built; a malformed range is a
generic (hard) error, an out-of-range tool version a warning. -/
def tgfVersionFindings (c : VTGFConfig) (toolVersion : String) : List Finding :=
  if c.RecommendedTGFVersion ≠ "" && toolVersion ≠ locallyBuilt then
    match CheckVersionRange toolVersion c.RecommendedTGFVersion with
    | .error _ => [.hardError]
    | .ok false => [.warning]
    | .ok true => []
  else []

/-- Rules 1-4 of `validate`, in source order; none of them returns early. -/
def validateWarnRules (c : VTGFConfig) (toolVersion : String) : List Finding :=
  imageNameWarning c ++ imageVersionWarning c ++ imageTagWarning c ++
    tgfVersionFindings c toolVersion

/-- The guard of the required-image-version rule (config.go line 450):
returns the explicit image version when the rule applies. -/
def requiredRuleApplies (c : VTGFConfig) : Option String :=
  match c.ImageVersion with
  | some v =>
    if c.RequiredVersionRange ≠ "" && v ≠ "" && reVersionMatch v then some v else none
  | none => none

/-- The recommended-image-version rule (config.go lines 460-466): a
malformed range is a generic (hard) error, an out-of-range version a
warning; no early return. -/
def recommendedImageFindings (c : VTGFConfig) : List Finding :=
  match c.ImageVersion with
  | some v =>
    if c.RecommendedImageVersion ≠ "" && v ≠ "" && reVersionMatch v then
      match CheckVersionRange v c.RecommendedImageVersion with
      | .error _ => [.hardError]
      | .ok false => [.warning]
      | .ok true => []
    else []
  | none => []

/-- Embedding of `validate` (config.go lines 424-469): rules 1-4 accumulate
warnings (or a hard error for a malformed recommended-tool range); the
required-image-version rule then RETURNS early on both a malformed range
(hard error) and an out-of-range version (mismatch), skipping the
recommended-image-version rule, which otherwise runs last. -/
def validate (c : VTGFConfig) (toolVersion : String) : List Finding :=
  match requiredRuleApplies c with
  | some v =>
    match CheckVersionRange v c.RequiredVersionRange with
    | .error _ => validateWarnRules c toolVersion ++ [.hardError]
    | .ok false => validateWarnRules c toolVersion ++ [.mismatch]
    | .ok true => validateWarnRules c toolVersion ++ recommendedImageFindings c
  | none => validateWarnRules c toolVersion ++ recommendedImageFindings c

/-- The finding-processing loop of `ValidateVersion` (config.go lines
474-488): warnings are logged and skipped; a version mismatch aborts only
when the CLI image version holds the `"-"` sentinel (not explicitly forced);
any other error aborts immediately. -/
def processFindings (tgfImageVersion : String) : List Finding → Bool
  | [] => true
  | .warning :: rest => processFindings tgfImageVersion rest
  | .mismatch :: rest =>
    if tgfImageVersion = "-" then false else processFindings tgfImageVersion rest
  | .hardError :: _ => false

/-- Embedding of `ValidateVersion` (config.go lines 472-490);
`tgfImageVersion` is `config.tgf.ImageVersion`, the CLI image-version
field. -/
def ValidateVersion (c : VTGFConfig) (toolVersion tgfImageVersion : String) : Bool :=
  processFindings tgfImageVersion (validate c toolVersion)

lemma accumulateStep_imageBuildConfigs (st : SpecialLists) (cd : ConfigData) :
    (accumulateStep st cd).imageBuildConfigs =
      match toBuild cd with
      | some b => b :: st.imageBuildConfigs
      | none => st.imageBuildConfigs := by
  unfold accumulateStep toBuild
  cases cd.config with
  | none => rfl
  | some c =>
    by_cases h1 : c.imageBuild ≠ "" <;>
      by_cases h2 : c.runBefore ≠ "" <;>
        by_cases h3 : c.runAfter ≠ "" <;>
          simp [h1, h2, h3]

lemma accumulateStep_runBeforeCommands (st : SpecialLists) (cd : ConfigData) :
    (accumulateStep st cd).runBeforeCommands =
      match toRunBefore cd with
      | some r => st.runBeforeCommands ++ [r]
      | none => st.runBeforeCommands := by
  unfold accumulateStep toRunBefore
  cases cd.config with
  | none => rfl
  | some c =>
    by_cases h1 : c.imageBuild ≠ "" <;>
      by_cases h2 : c.runBefore ≠ "" <;>
        by_cases h3 : c.runAfter ≠ "" <;>
          simp [h1, h2, h3]

lemma accumulateStep_runAfterCommands (st : SpecialLists) (cd : ConfigData) :
    (accumulateStep st cd).runAfterCommands =
      match toRunAfter cd with
      | some r => st.runAfterCommands ++ [r]
      | none => st.runAfterCommands := by
  unfold accumulateStep toRunAfter
  cases cd.config with
  | none => rfl
  | some c =>
    by_cases h1 : c.imageBuild ≠ "" <;>
      by_cases h2 : c.runBefore ≠ "" <;>
        by_cases h3 : c.runAfter ≠ "" <;>
          simp [h1, h2, h3]

lemma foldl_accumulate_builds (configs : List ConfigData) (st0 : SpecialLists) :
    (configs.foldl accumulateStep st0).imageBuildConfigs =
      (configs.filterMap toBuild).reverse ++ st0.imageBuildConfigs := by
  induction configs generalizing st0 with
  | nil => simp
  | cons cd cds ih =>
    rw [List.foldl_cons, ih, List.filterMap_cons]
    rw [accumulateStep_imageBuildConfigs]
    cases toBuild cd with
    | none => rfl
    | some b => simp

lemma foldl_accumulate_runBefore (configs : List ConfigData) (st0 : SpecialLists) :
    (configs.foldl accumulateStep st0).runBeforeCommands =
      st0.runBeforeCommands ++ configs.filterMap toRunBefore := by
  induction configs generalizing st0 with
  | nil => simp
  | cons cd cds ih =>
    rw [List.foldl_cons, ih, List.filterMap_cons]
    rw [accumulateStep_runBeforeCommands]
    cases toRunBefore cd with
    | none => rfl
    | some r => simp

lemma foldl_accumulate_runAfter (configs : List ConfigData) (st0 : SpecialLists) :
    (configs.foldl accumulateStep st0).runAfterCommands =
      st0.runAfterCommands ++ configs.filterMap toRunAfter := by
  induction configs generalizing st0 with
  | nil => simp
  | cons cd cds ih =>
    rw [List.foldl_cons, ih, List.filterMap_cons]
    rw [accumulateStep_runAfterCommands]
    cases toRunAfter cd with
    | none => rfl
    | some r => simp

/-! ## C6: build tag hashing (config.go lines 99-136) -/

/-- One entry delivered by `filepath.Walk` over the build context folder:
its path, whether it is a directory, whether the walk reported an error (or
a nil `FileInfo`) for it, and the `fmt.Sprintf`-rendering of its
modification time. -/
structure FileEntry where
  path : String
  isDir : Bool
  errored : Bool
  modTime : String
deriving Repr, DecidableEq

/-- Modelled from the spec: stand-in for the `crypto/md5` digest of the Go
standard library, which is external to this repository.  The claims depend
only on the digest being a deterministic function of the written byte
stream and on its 16-byte output shape, not on the MD5 compression
function, so a simple mixing fold over the stream is used. -/
def digest16 (l : List Char) : List Nat :=
  (List.range 16).map (fun i =>
    l.foldl (fun acc c => (acc * 131 + c.toNat + i * 17) % 256) (i * 7 % 256))

def hexChar (n : Nat) : Char :=
  if n < 10 then Char.ofNat (48 + n) else Char.ofNat (87 + n)

def hexByte (b : Nat) : List Char := [hexChar (b / 16 % 16), hexChar (b % 16)]

/-- Model of `fmt.Sprintf` with the hex verb on a digest: two lowercase hex
characters per byte. -/
def hexDigest (bytes : List Nat) : String := ⟨(bytes.map hexByte).flatten⟩

def isHexCh (c : Char) : Bool := isDigitCh c || ('a' ≤ c && c ≤ 'f')

/-- The walk entries whose timestamps `TGFConfigBuild.hash` folds in
(config.go lines 104-112): real files the walk delivered without error
whose path does not contain the reserved build-descriptor name pattern
(`dockerfilePattern`, defined outside the provided source files and passed
here as a parameter). -/
def hashedFiles (pattern : String) (fs : List FileEntry) : List FileEntry :=
  fs.filter (fun f => !f.errored && !f.isDir && !containsSub pattern.data f.path.data)

/-- The strings `TGFConfigBuild.hash` (config.go lines 99-115) writes to the
digest, in order: the base name of the source's directory, the instruction
text, and, when a build folder is configured, the modification-time
rendering of every hashed file in walk order. -/
def hashInputs (cb : TGFConfigBuild) (pattern : String) (fs : List FileEntry) : List String :=
  [baseName (dirName cb.source), cb.Instructions] ++
    (if cb.Folder ≠ "" then (hashedFiles pattern fs).map (·.modTime) else [])

/-- Embedding of `TGFConfigBuild.hash`: the hex digest of the concatenated
byte stream. -/
def hashTGF (cb : TGFConfigBuild) (pattern : String) (fs : List FileEntry) : String :=
  hexDigest (digest16 (((hashInputs cb pattern fs).map String.data).flatten))

/-- The character class `[a-zA-Z0-9._-]` of the tag regex
(config.go line 134). -/
def isTagChar (c : Char) : Bool :=
  c.isAlpha || c.isDigit || c = '.' || c = '_' || c = '-'

/-- Model of `tagRegex.ReplaceAllString(tag, "")` for the single-character
class `[^a-zA-Z0-9._-]` (config.go line 135): every disallowed character is
deleted. -/
def sanitizeTag (s : String) : String := ⟨s.data.filter isTagChar⟩

/-- Embedding of `TGFConfigBuild.GetTag` (config.go lines 128-136): the
explicit tag if set, otherwise `<folder-base-name>-<digest>`, sanitized
through `sanitizeTag`; `fs` lists the walk entries under the build context
folder. -/
def GetTag (cb : TGFConfigBuild) (pattern : String) (fs : List FileEntry) : String :=
  sanitizeTag
    (if cb.Tag = "" then baseName (dirName cb.source) ++ "-" ++ hashTGF cb pattern fs
     else cb.Tag)

/-! ## C7: alias expansion (config.go lines 517-542) -/

/-- Worker for `splitQuotedFields`: scan the characters, splitting on
whitespace outside double quotes; `cur` is the current token reversed,
`inQ` whether the scan is inside a quoted substring, `sawQ` whether any
quote was seen, `acc` the finished tokens reversed. -/
def splitQuotedFieldsAux :
    List Char → List Char → Bool → Bool → List (List Char) → List (List Char) × Bool
  | [], cur, _, sawQ, acc =>
    ((if cur.isEmpty then acc else cur.reverse :: acc).reverse, sawQ)
  | c :: rest, cur, inQ, sawQ, acc =>
    if c = '"' then splitQuotedFieldsAux rest (c :: cur) (!inQ) true acc
    else if (c = ' ' || c = '\t' || c = '\n' || c = '\r') && !inQ then
      splitQuotedFieldsAux rest [] inQ sawQ (if cur.isEmpty then acc else cur.reverse :: acc)
    else splitQuotedFieldsAux rest (c :: cur) inQ sawQ acc

/-- Modelled behaviour of the gotemplate string utilities used by
`parseAliases` (`String.Protect` then `Fields` then `RestoreProtected`,
from the external coveooss/gotemplate library): whitespace word-splitting
in which double-quoted substrings are protected from splitting (the quotes
stay in their token), together with the `len(quoted) > 0` flag.  Escape
sequences inside quotes, which alias values do not use, are not
modelled. -/
def splitQuotedFields (s : String) : List String × Bool :=
  let p := splitQuotedFieldsAux s.data [] false false []
  (p.1.map fun l => ⟨l⟩, p.2)

/-- One replacement of an `="`-sequence by `=` — the
`ReplaceN("=\"", "=", 1)` call at config.go line 526. -/
def replaceEqQuoteOnce : List Char → List Char
  | [] => []
  | '=' :: '"' :: rest => '=' :: rest
  | c :: rest => c :: replaceEqQuoteOnce rest

/-- Model of `Trim("\"")`: remove all leading and trailing double
quotes. -/
def trimQuotes (l : List Char) : List Char :=
  ((l.dropWhile (· = '"')).reverse.dropWhile (· = '"')).reverse

/-- The tokenization `parseAliases` applies to an alias replacement string
(config.go lines 520-528): quote-aware word split, then — only when a
quoted substring was found — per-token normalization (`="` collapsed once,
surrounding quotes trimmed). -/
def tokenizeAliasValue (replace : String) : List String :=
  if (splitQuotedFields replace).2 then
    (splitQuotedFields replace).1.map (fun t => ⟨trimQuotes (replaceEqQuoteOnce t.data)⟩)
  else (splitQuotedFields replace).1

/-- Go map lookup `config.Aliases[args[0]]`: the zero value (empty string)
when the key is absent. -/
def lookupAlias (aliases : List (String × String)) (k : String) : String :=
  match aliases.find? (fun p => p.1 = k) with
  | some p => p.2
  | none => ""

/-- Embedding of `parseAliases` (config.go lines 517-533): when the leading
argument maps to a non-empty replacement, tokenize the replacement, recurse
on it (alias chains), and append the untouched remaining arguments.  The Go
recursion has no termination measure (a cyclic alias table diverges); the
embedding makes the call stack explicit as fuel, which the theorems
quantify over. -/
def parseAliases (aliases : List (String × String)) : Nat → List String → List String
  | _, [] => []
  | 0, a :: rest => a :: rest
  | fuel + 1, a :: rest =>
    if lookupAlias aliases a = "" then a :: rest
    else parseAliases aliases fuel (tokenizeAliasValue (lookupAlias aliases a)) ++ rest

/-! ## C1 / C10: AWS session manager (config.go lines 163-317) -/

def exceptDecEq {ε α : Type} [DecidableEq ε] [DecidableEq α] :
    DecidableEq (Except ε α) := fun a b =>
  match a, b with
  | .error e, .error f =>
    if h : e = f then .isTrue (by rw [h])
    else .isFalse (fun hh => h (by cases hh; rfl))
  | .error _, .ok _ => .isFalse (fun hh => Except.noConfusion hh)
  | .ok _, .error _ => .isFalse (fun hh => Except.noConfusion hh)
  | .ok x, .ok y =>
    if h : x = y then .isTrue (by rw [h])
    else .isFalse (fun hh => h (by cases hh; rfl))

instance {ε α : Type} [DecidableEq ε] [DecidableEq α] : DecidableEq (Except ε α) :=
  exceptDecEq

/-- The fields of `aws.Credentials` that config.go reads: the three secret
components, whether the credentials can expire, and the value of
`time.Until(creds.Expires)` in seconds at the moment of the check. -/
structure Creds where
  accessKeyID : String
  secretAccessKey : String
  sessionToken : String
  canExpire : Bool
  expiresInSec : Int
deriving Repr, DecidableEq

/-- The part of `aws.Config` the embedding tracks: the region and the
outcome of `config.Credentials.Retrieve` on this config. -/
structure AwsCfg where
  region : String
  creds : Except String Creds
deriving Repr, DecidableEq

/-- Oracle for the AWS SDK calls made by the session manager: `load n d` is
the result of the `n`-th `loadDefaultConfig` call of one `getAwsConfig`
invocation when made with assume-role duration `d` seconds (`n`
distinguishes the initial resolution from the renegotiation, whose outcomes
may differ); `callerIdentityArn` and `getRoleMaxDuration` are the STS
GetCallerIdentity and IAM GetRole responses used by
`guessAwsMaxAssumeRoleDuration`. -/
structure AwsWorld where
  load : Nat → Int → Except String AwsCfg
  callerIdentityArn : Except String String
  getRoleMaxDuration : String → Except String Int

/-- The characters before the last slash of `l` (meaningful when `l`
contains a slash). -/
def beforeLastSlash (l : List Char) : List Char :=
  ((l.reverse.dropWhile (· ≠ '/')).drop 1).reverse

/-- Greedy capture of the regex `.*:assumed-role/(.*)/.*` applied to the
parts after each `":assumed-role/"` separator: the leading greedy `.*`
selects the LAST separator that is still followed by a slash somewhere, and
the greedy group then extends to the last slash of that remainder. -/
def pickAssumedRole : List (List Char) → Option String
  | [] => none
  | p :: ps =>
    match pickAssumedRole ps with
    | some g => some g
    | none =>
      let r := List.intercalate (":assumed-role/".data) (p :: ps)
      if containsCh '/' r then some ⟨beforeLastSlash r⟩ else none

/-- Model of `roleRegex.FindStringSubmatch(arn)` for the pattern
`.*:assumed-role/(.*)/.*` (config.go lines 247 and 255): the captured role
name, or `none` when the regex does not match (no `":assumed-role/"`
occurrence followed by a later slash). -/
def extractAssumedRole (arn : String) : Option String :=
  match splitOnSub (":assumed-role/".data) arn.data with
  | [] => none
  | [_] => none
  | _ :: rest => pickAssumedRole rest

/-- Embedding of `guessAwsMaxAssumeRoleDuration` (config.go lines 243-275):
one hour (3600 s) fallback when identity resolution fails, the identity is
not an assumed role, or the role lookup errs; otherwise the role's
configured `MaxSessionDuration` in seconds. -/
def guessAwsMaxAssumeRoleDuration (w : AwsWorld) : Int :=
  match w.callerIdentityArn with
  | .error _ => 3600
  | .ok arn =>
    match extractAssumedRole arn with
    | none => 3600
    | some role =>
      match w.getRoleMaxDuration role with
      | .error _ => 3600
      | .ok maxSec => maxSec

/-- Embedding of `getAwsConfig` (config.go lines 196-241), with the
process-global `cachedAwsConfig` threaded explicitly; returns the result
together with the cache after the call.  Mirrors the source faithfully,
including line 230: when the retrieved credentials can expire in under one
hour, the renegotiation reloads the config with the ORIGINAL
`assumeRoleDuration` argument — the freshly computed
`guessAwsMaxAssumeRoleDuration` value feeds only the warning logs — and a
failed reload keeps the original short-lived config without error. -/
def getAwsConfig (w : AwsWorld) (cached : Option AwsCfg) (assumeRoleDuration : Int) :
    Except String AwsCfg × Option AwsCfg :=
  match cached with
  | some c => (.ok c, some c)
  | none =>
    match w.load 0 assumeRoleDuration with
    | .error e => (.error e, none)
    | .ok config =>
      match config.creds with
      | .error e => (.error e, none)
      | .ok creds =>
        if creds.canExpire && creds.expiresInSec < 3600 then
          match w.load 1 assumeRoleDuration with
          | .error _ => (.ok config, some config)
          | .ok config2 => (.ok config2, some config2)
        else (.ok config, some config)

/-- Modelled from the spec (refinement comparison for the renegotiation):
the near-expiry path as the specification words it — re-resolve the session
REQUESTING the duration computed by `guessAwsMaxAssumeRoleDuration`.  This
definition follows the spec's words, not the source; compare with
`getAwsConfig`. -/
def getAwsConfigSpecModelled (w : AwsWorld) (cached : Option AwsCfg)
    (assumeRoleDuration : Int) : Except String AwsCfg × Option AwsCfg :=
  match cached with
  | some c => (.ok c, some c)
  | none =>
    match w.load 0 assumeRoleDuration with
    | .error e => (.error e, none)
    | .ok config =>
      match config.creds with
      | .error e => (.error e, none)
      | .ok creds =>
        if creds.canExpire && creds.expiresInSec < 3600 then
          match w.load 1 (guessAwsMaxAssumeRoleDuration w) with
          | .error _ => (.ok config, some config)
          | .ok config2 => (.ok config2, some config2)
        else (.ok config, some config)

/-- `os.Setenv`-style update of an association-list environment: replace
the binding if the key exists, append it otherwise. -/
def setEnvVar (m : List (String × String)) (k v : String) : List (String × String) :=
  match m with
  | [] => [(k, v)]
  | p :: rest => if p.1 = k then (p.1, v) :: rest else p :: setEnvVar rest k v

/-- `os.Unsetenv`-style removal. -/
def unsetEnvVar (m : List (String × String)) (k : String) : List (String × String) :=
  m.filter (fun p => p.1 ≠ k)

/-- Environment lookup: the first binding of the key, if any. -/
def getEnvVar : List (String × String) → String → Option String
  | [], _ => none
  | p :: rest, k => if p.1 = k then some p.2 else getEnvVar rest k

/-- The four credential environment entries `InitAWS` writes
(config.go lines 304-309). -/
def credEnvPairs (creds : Creds) (region : String) : List (String × String) :=
  [("AWS_ACCESS_KEY_ID", creds.accessKeyID),
   ("AWS_SECRET_ACCESS_KEY", creds.secretAccessKey),
   ("AWS_SESSION_TOKEN", creds.sessionToken),
   ("AWS_REGION", region)]

/-- The state `InitAWS` leaves behind on success: the process environment,
the configuration's `Environment` mapping, and the session cache. -/
structure InitAWSOutcome where
  osEnv : List (String × String)
  cfgEnv : List (String × String)
  cache : Option AwsCfg
deriving Repr, DecidableEq

/-- Embedding of `InitAWS` (config.go lines 289-317): resolve the session,
retrieve its credentials, clear the profile-selection variables, then write
the four credential entries into the process environment — and, only when
the config-dump flag is NOT set, also into the configuration's
`Environment` mapping.  The iteration order of the Go map literal is
immaterial because the four keys are distinct; the embedding fixes the
source order. -/
def InitAWS (w : AwsWorld) (cached : Option AwsCfg) (configDump : Bool)
    (osEnv cfgEnv : List (String × String)) : Except String InitAWSOutcome :=
  match getAwsConfig w cached 0 with
  | (.error e, _) => .error e
  | (.ok awsCfg, cacheAfter) =>
    match awsCfg.creds with
    | .error e => .error e
    | .ok creds =>
      .ok
        ⟨(credEnvPairs creds awsCfg.region).foldl (fun m p => setEnvVar m p.1 p.2)
            (unsetEnvVar (unsetEnvVar osEnv "AWS_PROFILE") "AWS_DEFAULT_PROFILE"),
          if configDump then cfgEnv
          else (credEnvPairs creds awsCfg.region).foldl (fun m p => setEnvVar m p.1 p.2) cfgEnv,
          cacheAfter⟩

/-! ## Concrete session-manager scenarios -/

/-- First resolution of the renegotiation scenario: expirable credentials
with 1800 s (half an hour) of remaining lifetime. -/
def renegCfgFirst : AwsCfg := ⟨"ca-central-1", .ok ⟨"AK1", "SK1", "TK1", true, 1800⟩⟩

/-- What the renegotiation scenario's reload returns when asked with the
original duration 0 (another short-lived config). -/
def renegCfgRetry : AwsCfg := ⟨"reloaded-with-duration-0", .ok ⟨"AK2", "SK2", "TK2", true, 1800⟩⟩

/-- What the renegotiation scenario's reload returns when asked with the
role's maximum duration of 14400 s. -/
def renegCfgLong : AwsCfg := ⟨"reloaded-with-duration-14400", .ok ⟨"AK3", "SK3", "TK3", true, 14400⟩⟩

/-- Renegotiation scenario: the first load yields `renegCfgFirst`; the
second load's outcome depends on the duration it requests; the caller
identity is the assumed role `MyRole`, whose configured maximum session
duration is 14400 s. -/
def renegWorld : AwsWorld :=
  ⟨fun n d => if n = 0 then .ok renegCfgFirst
              else if d = 14400 then .ok renegCfgLong else .ok renegCfgRetry,
   .ok "arn:aws:sts::123456789012:assumed-role/MyRole/tgf-session",
   fun r => if r = "MyRole" then .ok 14400 else .error "NoSuchEntity"⟩

/-- Same first resolution, but every renegotiation reload fails. -/
def renegFailWorld : AwsWorld :=
  ⟨fun n _ => if n = 0 then .ok renegCfgFirst else .error "could not assume role",
   .ok "arn:aws:sts::123456789012:assumed-role/MyRole/tgf-session",
   fun r => if r = "MyRole" then .ok 14400 else .error "NoSuchEntity"⟩

/-- A session world whose credentials cannot expire (no renegotiation). -/
def plainWorld : AwsWorld :=
  ⟨fun _ _ => .ok ⟨"us-east-1", .ok ⟨"AKIAEXAMPLE", "SECRETEXAMPLE", "TOKENEXAMPLE", false, 0⟩⟩,
   .error "offline", fun _ => .error "offline"⟩

/-! ## Theorems for C2, C3, C8, C9 -/

lemma stringAppend_eq_empty (s t : String) : s ++ t = "" ↔ s = "" ∧ t = "" := by
  rcases s with ⟨a⟩
  rcases t with ⟨b⟩
  show (⟨a ++ b⟩ : String) = ⟨[]⟩ ↔ (⟨a⟩ : String) = ⟨[]⟩ ∧ (⟨b⟩ : String) = ⟨[]⟩
  simp [String.ext_iff]

/-- Claim C2 (counterexample): with two layers, least-specific first, each
contributing a build spec, the accumulated `imageBuildConfigs` does NOT end
with the most specific (leaf) layer's build instructions — it ends with the
root's, because the loop prepends. -/
theorem c2_build_order_counterexample :
    (setDefaultValuesSpecials
        [⟨"/root.tgf.config", some ⟨"RUN root", "", "", "", ""⟩⟩,
         ⟨"/a/leaf.tgf.config", some ⟨"RUN leaf", "", "", "", ""⟩⟩]
        emptySpecials).imageBuildConfigs.getLast?
      ≠ some ⟨"RUN leaf", "", "", "/a/leaf.tgf.config"⟩ := by
  decide

/-- Claim C2 (amended): for every ordered list of configuration layers,
least-specific first, the accumulated `imageBuildConfigs` list is the
REVERSE of the contribution order — the most specific (closest-to-cwd)
layer's build instructions come FIRST in the list, because each new build
spec is prepended (config.go line 400). -/
theorem c2_build_order_amended (configs : List ConfigData) :
    (setDefaultValuesSpecials configs emptySpecials).imageBuildConfigs =
      (configs.filterMap toBuild).reverse := by
  unfold setDefaultValuesSpecials
  rw [foldl_accumulate_builds]
  simp [emptySpecials]

lemma filterMap_toRunBefore_eq_map (configs : List ConfigData)
    (h : ∀ cd ∈ configs, ∃ c, cd.config = some c ∧ c.runBefore ≠ "" ∧ c.runAfter ≠ "") :
    configs.filterMap toRunBefore = configs.map runBeforeOf := by
  induction configs with
  | nil => rfl
  | cons cd cds ih =>
    obtain ⟨c, hc, hrb, _⟩ := h cd (by simp)
    rw [List.filterMap_cons, List.map_cons]
    rw [ih (fun x hx => h x (by simp [hx]))]
    simp [toRunBefore, runBeforeOf, hc, hrb]

lemma filterMap_toRunAfter_eq_map (configs : List ConfigData)
    (h : ∀ cd ∈ configs, ∃ c, cd.config = some c ∧ c.runBefore ≠ "" ∧ c.runAfter ≠ "") :
    configs.filterMap toRunAfter = configs.map runAfterOf := by
  induction configs with
  | nil => rfl
  | cons cd cds ih =>
    obtain ⟨c, hc, _, hra⟩ := h cd (by simp)
    rw [List.filterMap_cons, List.map_cons]
    rw [ih (fun x hx => h x (by simp [hx]))]
    simp [toRunAfter, runAfterOf, hc, hra]

/-- Claim C3: for layers `[root, ..., leaf]`, least-specific first, each
contributing one run-before and one run-after command, the merged pre-run
list is the reverse `[leaf, ..., root]` (most specific executes last) and
the post-run list keeps discovery order `[root, ..., leaf]`. -/
theorem c3_run_command_order (configs : List ConfigData)
    (h : ∀ cd ∈ configs, ∃ c, cd.config = some c ∧ c.runBefore ≠ "" ∧ c.runAfter ≠ "") :
    (setDefaultValuesSpecials configs emptySpecials).runBeforeCommands =
        (configs.map runBeforeOf).reverse ∧
      (setDefaultValuesSpecials configs emptySpecials).runAfterCommands =
        configs.map runAfterOf := by
  constructor
  · show (configs.foldl accumulateStep emptySpecials).runBeforeCommands.reverse = _
    rw [foldl_accumulate_runBefore, filterMap_toRunBefore_eq_map configs h]
    simp [emptySpecials]
  · show (configs.foldl accumulateStep emptySpecials).runAfterCommands = _
    rw [foldl_accumulate_runAfter, filterMap_toRunAfter_eq_map configs h]
    simp [emptySpecials]

/-- Witness for C3 at a concrete two-layer input. -/
theorem c3_run_command_order_witness :
    (setDefaultValuesSpecials
        [⟨"/root.tgf.config", some ⟨"", "", "", "echo root-before", "echo root-after"⟩⟩,
         ⟨"/a/leaf.tgf.config", some ⟨"", "", "", "echo leaf-before", "echo leaf-after"⟩⟩]
        emptySpecials).runBeforeCommands = ["echo leaf-before", "echo root-before"] ∧
      (setDefaultValuesSpecials
        [⟨"/root.tgf.config", some ⟨"", "", "", "echo root-before", "echo root-after"⟩⟩,
         ⟨"/a/leaf.tgf.config", some ⟨"", "", "", "echo leaf-before", "echo leaf-after"⟩⟩]
        emptySpecials).runAfterCommands = ["echo root-after", "echo leaf-after"] := by
  have h := c3_run_command_order
    [⟨"/root.tgf.config", some ⟨"", "", "", "echo root-before", "echo root-after"⟩⟩,
     ⟨"/a/leaf.tgf.config", some ⟨"", "", "", "echo leaf-before", "echo leaf-after"⟩⟩]
    (by
      intro cd hcd
      simp only [List.mem_cons, List.not_mem_nil, or_false] at hcd
      rcases hcd with h1 | h1
      · subst h1; exact ⟨_, rfl, by decide, by decide⟩
      · subst h1; exact ⟨_, rfl, by decide, by decide⟩)
  exact ⟨h.1.trans (by decide), h.2.trans (by decide)⟩

/-- Claim C8: `GetImageName` composes `repository[:version[-tag]]`: it
agrees with the specification's composition rule (hyphen only when both
version and tag are non-empty, colon only when the suffix has at least two
characters), and satisfies the three documented examples. -/
theorem c8_image_name_composition :
    (∀ (image : String) (vOpt tOpt : Option String),
        GetImageName image vOpt tOpt =
          (let s := specImageSuffix (vOpt.getD "") (tOpt.getD "")
           if s.length ≥ 2 then image ++ ":" ++ s else image)) ∧
      GetImageName "foo" (some "1.0") (some "") = "foo:1.0" ∧
      GetImageName "foo" (some "") (some "") = "foo" ∧
      GetImageName "foo" (some "1.0") (some "k8s") = "foo:1.0-k8s" := by
  refine ⟨?_, rfl, rfl, rfl⟩
  intro image vOpt tOpt
  cases vOpt with
  | none =>
    cases tOpt with
    | none => simp [GetImageName, specImageSuffix, Nat.lt_iff_add_one_le]
    | some t =>
      simp only [GetImageName, specImageSuffix, Option.getD]
      by_cases ht : t = "" <;> simp [ht, Nat.lt_iff_add_one_le]
  | some v =>
    cases tOpt with
    | none =>
      simp only [GetImageName, specImageSuffix, Option.getD]
      by_cases hv : v = "" <;> simp [hv, Nat.lt_iff_add_one_le]
    | some t =>
      simp only [GetImageName, specImageSuffix, Option.getD]
      by_cases hv : v = "" <;> by_cases ht : t = "" <;>
        simp [hv, ht, tagSeparator, Nat.lt_iff_add_one_le]

/-- Claim C9: the cloud-context gate is memoized — in any sequence of calls
the first call's result is returned by every later call, whatever each later
call's environment is — and the first call returns true iff cloud use is not
disabled and one of the designated environment variables is set, the aws CLI
binary is on the search path, or the `~/.aws` directory exists under the
current user's home. -/
theorem c9_aws_gate_memoized (e : AwsCheckEnv) (es : List AwsCheckEnv) :
    awsConfigExistCalls none (e :: es) =
        computeAwsConfigExist e :: List.replicate es.length (computeAwsConfigExist e) ∧
      computeAwsConfigExist e =
        (e.useAWS &&
          (e.awsProfile ≠ "" || e.awsAccessKeyID ≠ "" || e.awsConfigFile ≠ "" ||
            e.tgfUseAwsConfig ≠ "" || e.awsCliOnPath ||
            (e.currentUserOk && e.awsFolderStat = some true))) := by
  constructor
  · have hcached : ∀ (b : Bool) (l : List AwsCheckEnv),
        awsConfigExistCalls (some b) l = List.replicate l.length b := by
      intro b l
      induction l with
      | nil => rfl
      | cons x xs ih => simp [awsConfigExistCalls, awsConfigExist, ih, List.replicate]
    simp [awsConfigExistCalls, awsConfigExist, hcached]
  · have hiff : (e.awsProfile ++ e.awsAccessKeyID ++ e.awsConfigFile ++ e.tgfUseAwsConfig = "")
        ↔ (e.awsProfile = "" ∧ e.awsAccessKeyID = "" ∧ e.awsConfigFile = ""
            ∧ e.tgfUseAwsConfig = "") := by
      simp [stringAppend_eq_empty, and_assoc]
    by_cases hu : e.useAWS
    · by_cases hc : e.awsProfile ++ e.awsAccessKeyID ++ e.awsConfigFile ++ e.tgfUseAwsConfig = ""
      · obtain ⟨h1, h2, h3, h4⟩ := hiff.mp hc
        by_cases h5 : e.awsCliOnPath
        · simp [computeAwsConfigExist, hu, hc, h5, h1, h2, h3, h4]
        · simp only [computeAwsConfigExist, hu, hc, h5]
          simp [h1, h2, h3, h4, h5]
          cases e.awsFolderStat with
          | none => simp
          | some b => cases b <;> simp
      · have hone : e.awsProfile ≠ "" ∨ e.awsAccessKeyID ≠ "" ∨ e.awsConfigFile ≠ ""
            ∨ e.tgfUseAwsConfig ≠ "" := by
          by_contra hno
          push_neg at hno
          exact hc (hiff.mpr ⟨hno.1, hno.2.1, hno.2.2.1, hno.2.2.2⟩)
        simp only [computeAwsConfigExist, hu]
        rw [if_neg (by simp), if_pos hc]
        rcases hone with h | h | h | h <;> simp [h, hu]
    · simp [computeAwsConfigExist, hu]

/-! ## Theorems for C4, C5 -/

lemma processFindings_warnings (s : String) (ws rest : List Finding)
    (h : ∀ f ∈ ws, f = Finding.warning) :
    processFindings s (ws ++ rest) = processFindings s rest := by
  induction ws with
  | nil => rfl
  | cons f fs ih =>
    have hf := h f (by simp)
    subst hf
    rw [List.cons_append]
    show processFindings s (fs ++ rest) = processFindings s rest
    exact ih (fun x hx => h x (by simp [hx]))

/-- Claim C4: `CheckVersionRange` pads a version string containing exactly
one dot with a patch component before range comparison, so `"1.2"` against
`">=1.2.0 <2.0.0"` is valid, `"1.1"` against the same range is invalid with
no error (and is classified as a Mismatch by the required-range rule of
`validate`), and the malformed range `"not-a-range"` is a hard error, not a
false result. -/
theorem c4_partial_version_padding :
    (∀ version compare : String, version.data.count '.' = 1 →
        CheckVersionRange version compare = checkCVR (version ++ ".9999") compare) ∧
      CheckVersionRange "1.2" ">=1.2.0 <2.0.0" = .ok true ∧
      CheckVersionRange "1.1" ">=1.2.0 <2.0.0" = .ok false ∧
      exceptIsError (CheckVersionRange "1.2" "not-a-range") = true ∧
      validate ⟨"coveo/tgf", some "1.1", none, "", ">=1.2.0 <2.0.0", ""⟩ "1.0.0" =
        [Finding.mismatch] := by
  refine ⟨?_, rfl, rfl, rfl, rfl⟩
  intro version compare h
  unfold CheckVersionRange
  rw [if_pos h]

/-- Witness for C4: the padding equation applied at the concrete partial
version `"1.2"`. -/
theorem c4_partial_version_padding_witness :
    CheckVersionRange "1.2" ">=1.2.0 <2.0.0" =
      checkCVR ("1.2" ++ ".9999") ">=1.2.0 <2.0.0" :=
  c4_partial_version_padding.1 "1.2" ">=1.2.0 <2.0.0" (by decide)

/-- Claim C5: when the required-image-version rule applies (required range
set, explicit non-empty version-shaped image version) and the earlier rules
produced only warnings: a malformed required range yields a hard error that
ends `validate` (the recommended-image rule is skipped) and makes
`ValidateVersion` abort; an out-of-range version yields a Mismatch that
makes `ValidateVersion` return false exactly when the CLI image version
holds the `"-"` sentinel (i.e. the version was not explicitly forced), and
is advisory otherwise. -/
theorem c5_required_version_rule (c : VTGFConfig) (tool tgfV v : String)
    (himg : c.ImageVersion = some v)
    (hreq : c.RequiredVersionRange ≠ "")
    (hvne : v ≠ "")
    (hshape : reVersionMatch v = true)
    (hwarn : ∀ f ∈ validateWarnRules c tool, f = Finding.warning) :
    (exceptIsError (CheckVersionRange v c.RequiredVersionRange) = true →
        validate c tool = validateWarnRules c tool ++ [Finding.hardError] ∧
          ValidateVersion c tool tgfV = false) ∧
      (CheckVersionRange v c.RequiredVersionRange = .ok false →
        validate c tool = validateWarnRules c tool ++ [Finding.mismatch] ∧
          (ValidateVersion c tool tgfV = false ↔ tgfV = "-")) := by
  have happ : requiredRuleApplies c = some v := by
    simp [requiredRuleApplies, himg, hreq, hvne, hshape]
  constructor
  · intro herr
    cases hcvr : CheckVersionRange v c.RequiredVersionRange with
    | ok b =>
      rw [hcvr] at herr
      simp [exceptIsError] at herr
    | error e =>
      have hval : validate c tool = validateWarnRules c tool ++ [Finding.hardError] := by
        simp [validate, happ, hcvr]
      refine ⟨hval, ?_⟩
      unfold ValidateVersion
      rw [hval, processFindings_warnings tgfV _ _ hwarn]
      rfl
  · intro hok
    have hval : validate c tool = validateWarnRules c tool ++ [Finding.mismatch] := by
      simp [validate, happ, hok]
    refine ⟨hval, ?_⟩
    unfold ValidateVersion
    rw [hval, processFindings_warnings tgfV _ _ hwarn]
    by_cases hs : tgfV = "-" <;> simp [processFindings, hs]

/-- Witness for C5 at a concrete configuration whose explicit image version
`"1.1"` falls outside the required range `">=1.2.0 <2.0.0"`. -/
theorem c5_required_version_rule_witness :
    (exceptIsError (CheckVersionRange "1.1" ">=1.2.0 <2.0.0") = true →
        validate ⟨"coveo/tgf", some "1.1", none, "", ">=1.2.0 <2.0.0", ""⟩ "1.0.0" =
            validateWarnRules ⟨"coveo/tgf", some "1.1", none, "", ">=1.2.0 <2.0.0", ""⟩
                "1.0.0" ++ [Finding.hardError] ∧
          ValidateVersion ⟨"coveo/tgf", some "1.1", none, "", ">=1.2.0 <2.0.0", ""⟩
              "1.0.0" "-" = false) ∧
      (CheckVersionRange "1.1" ">=1.2.0 <2.0.0" = .ok false →
        validate ⟨"coveo/tgf", some "1.1", none, "", ">=1.2.0 <2.0.0", ""⟩ "1.0.0" =
            validateWarnRules ⟨"coveo/tgf", some "1.1", none, "", ">=1.2.0 <2.0.0", ""⟩
                "1.0.0" ++ [Finding.mismatch] ∧
          (ValidateVersion ⟨"coveo/tgf", some "1.1", none, "", ">=1.2.0 <2.0.0", ""⟩
              "1.0.0" "-" = false ↔ ("-" : String) = "-")) :=
  c5_required_version_rule ⟨"coveo/tgf", some "1.1", none, "", ">=1.2.0 <2.0.0", ""⟩
    "1.0.0" "-" "1.1" rfl (by decide) (by decide) rfl (by decide)

/-- Witness for C9 at a concrete call sequence: the gate keeps answering
true after the first call even though the second call's environment has all
signals cleared. -/
theorem c9_aws_gate_memoized_witness :
    awsConfigExistCalls none
        [⟨true, "dev", "", "", "", false, false, none⟩,
         ⟨true, "", "", "", "", false, false, none⟩] = [true, true] ∧
      computeAwsConfigExist ⟨true, "dev", "", "", "", false, false, none⟩ =
        (true && (("dev" : String) ≠ "" || ("" : String) ≠ "" || ("" : String) ≠ "" ||
          ("" : String) ≠ "" || false || (false && (none : Option Bool) = some true))) := by
  have h := c9_aws_gate_memoized ⟨true, "dev", "", "", "", false, false, none⟩
    [⟨true, "", "", "", "", false, false, none⟩]
  refine ⟨?_, h.2⟩
  rw [h.1]
  decide

/-! ## Theorems for C1, C6, C7, C10 -/

/-- Claim C1: code bug at config.go line 230.  In the near-expiry
renegotiation the code computes `guessAwsMaxAssumeRoleDuration` (here
14400 s, and the fallback parts of the claim — one hour on identity
failure, non-assumed-role identity, or role-lookup error — hold), but then
re-resolves the session with the ORIGINAL `assumeRoleDuration` argument
(always 0 from both call sites) instead of the computed duration; the
spec-modelled renegotiation returns the 14400 s session instead.  The
keep-the-short-session-on-failure part of the claim does hold. -/
theorem c1_renegotiation_requests_original_duration :
    guessAwsMaxAssumeRoleDuration renegWorld = 14400 ∧
      getAwsConfig renegWorld none 0 = (.ok renegCfgRetry, some renegCfgRetry) ∧
      getAwsConfigSpecModelled renegWorld none 0 = (.ok renegCfgLong, some renegCfgLong) ∧
      renegCfgRetry ≠ renegCfgLong ∧
      getAwsConfig renegFailWorld none 0 = (.ok renegCfgFirst, some renegCfgFirst) ∧
      guessAwsMaxAssumeRoleDuration
          ⟨fun _ _ => .error "offline", .error "offline", fun _ => .error "offline"⟩ = 3600 ∧
      guessAwsMaxAssumeRoleDuration
          ⟨fun _ _ => .error "offline", .ok "arn:aws:iam::123456789012:user/bob",
            fun _ => .error "NoSuchEntity"⟩ = 3600 ∧
      guessAwsMaxAssumeRoleDuration
          ⟨fun _ _ => .error "offline", .ok "arn:aws:sts::123456789012:assumed-role/MyRole/s",
            fun _ => .error "AccessDenied"⟩ = 3600 := by
  exact ⟨rfl, rfl, rfl, by decide, rfl, rfl, rfl, rfl⟩

lemma isHexCh_hexChar {n : Nat} (h : n < 16) : isHexCh (hexChar n) = true :=
  (by decide : ∀ j : Fin 16, isHexCh (hexChar j.val) = true) ⟨n, h⟩

lemma hexDigest_chars (bytes : List Nat) :
    ∀ ch ∈ (hexDigest bytes).data, isHexCh ch = true := by
  intro ch hch
  have hch2 : ch ∈ (bytes.map hexByte).flatten := hch
  rcases List.mem_flatten.mp hch2 with ⟨l, hl, hcl⟩
  rcases List.mem_map.mp hl with ⟨b, hb, rfl⟩
  have h16 : (0 : Nat) < 16 := by norm_num
  simp only [hexByte, List.mem_cons, List.not_mem_nil, or_false] at hcl
  rcases hcl with rfl | rfl
  · exact isHexCh_hexChar (Nat.mod_lt _ h16)
  · exact isHexCh_hexChar (Nat.mod_lt _ h16)

/-- Claim C6: for every build spec without an explicit tag, `GetTag`
composes `<folder-base-name>-<digest>` where the digest is the hex
rendering of the fingerprint over the folder base name, the instruction
text and the hashed files' timestamps (directories, errored walk entries
and paths containing the reserved build-descriptor pattern excluded); the
digest is all lowercase hex; and the returned tag — also on the
explicit-tag path — contains no character outside `[a-zA-Z0-9._-]`. -/
theorem c6_build_tag (cb : TGFConfigBuild) (pattern : String) (fs : List FileEntry) :
    (cb.Tag = "" →
        GetTag cb pattern fs =
          sanitizeTag (baseName (dirName cb.source) ++ "-" ++
            hexDigest (digest16 (((hashInputs cb pattern fs).map String.data).flatten)))) ∧
      (∀ ch ∈ (hashTGF cb pattern fs).data, isHexCh ch = true) ∧
      (∀ ch ∈ (GetTag cb pattern fs).data, isTagChar ch = true) := by
  refine ⟨?_, hexDigest_chars _, ?_⟩
  · intro h
    unfold GetTag
    rw [if_pos h]
    rfl
  · intro ch hch
    have hch2 : ch ∈
        (if cb.Tag = "" then baseName (dirName cb.source) ++ "-" ++ hashTGF cb pattern fs
         else cb.Tag).data.filter isTagChar := hch
    exact (List.mem_filter.mp hch2).2

/-- Witness for C6 at a concrete build spec (no explicit tag, a build
folder, one real file, one directory and one descriptor-pattern file in the
walk). -/
theorem c6_build_tag_witness :
    ((⟨"RUN apk add curl", "./build", "", "/repo/proj/.tgf.config"⟩ : TGFConfigBuild).Tag = "" →
        GetTag ⟨"RUN apk add curl", "./build", "", "/repo/proj/.tgf.config"⟩ ".tgf.Dockerfile"
            [⟨"/repo/proj/build/script.sh", false, false, "2024-03-01 10:00:00 +0000 UTC"⟩,
             ⟨"/repo/proj/build/sub", true, false, "2024-03-01 10:00:00 +0000 UTC"⟩,
             ⟨"/repo/proj/build/.tgf.Dockerfile", false, false, "2024-03-02 11:00:00 +0000 UTC"⟩] =
          sanitizeTag (baseName (dirName "/repo/proj/.tgf.config") ++ "-" ++
            hexDigest (digest16 (((hashInputs
              ⟨"RUN apk add curl", "./build", "", "/repo/proj/.tgf.config"⟩ ".tgf.Dockerfile"
              [⟨"/repo/proj/build/script.sh", false, false, "2024-03-01 10:00:00 +0000 UTC"⟩,
               ⟨"/repo/proj/build/sub", true, false, "2024-03-01 10:00:00 +0000 UTC"⟩,
               ⟨"/repo/proj/build/.tgf.Dockerfile", false, false, "2024-03-02 11:00:00 +0000 UTC"⟩]).map
                String.data).flatten)))) ∧
      (∀ ch ∈ (hashTGF ⟨"RUN apk add curl", "./build", "", "/repo/proj/.tgf.config"⟩
          ".tgf.Dockerfile"
          [⟨"/repo/proj/build/script.sh", false, false, "2024-03-01 10:00:00 +0000 UTC"⟩,
           ⟨"/repo/proj/build/sub", true, false, "2024-03-01 10:00:00 +0000 UTC"⟩,
           ⟨"/repo/proj/build/.tgf.Dockerfile", false, false, "2024-03-02 11:00:00 +0000 UTC"⟩]).data,
        isHexCh ch = true) ∧
      (∀ ch ∈ (GetTag ⟨"RUN apk add curl", "./build", "", "/repo/proj/.tgf.config"⟩
          ".tgf.Dockerfile"
          [⟨"/repo/proj/build/script.sh", false, false, "2024-03-01 10:00:00 +0000 UTC"⟩,
           ⟨"/repo/proj/build/sub", true, false, "2024-03-01 10:00:00 +0000 UTC"⟩,
           ⟨"/repo/proj/build/.tgf.Dockerfile", false, false, "2024-03-02 11:00:00 +0000 UTC"⟩]).data,
        isTagChar ch = true) :=
  c6_build_tag ⟨"RUN apk add curl", "./build", "", "/repo/proj/.tgf.config"⟩ ".tgf.Dockerfile"
    [⟨"/repo/proj/build/script.sh", false, false, "2024-03-01 10:00:00 +0000 UTC"⟩,
     ⟨"/repo/proj/build/sub", true, false, "2024-03-01 10:00:00 +0000 UTC"⟩,
     ⟨"/repo/proj/build/.tgf.Dockerfile", false, false, "2024-03-02 11:00:00 +0000 UTC"⟩]

/-- Claim C7: alias expansion replaces only the leading argument when it
matches an alias key (a leading argument matching no key — or mapping to
the empty replacement, the Go map's zero value — leaves the arguments
unchanged), tokenizes the replacement respecting quoted substrings, keeps
all subsequent original arguments unchanged, recurses on the new leading
token, and on the documented example expands
`["deploy", "-var", "x=1"]` with `deploy -> "apply -auto-approve"` to
`["apply", "-auto-approve", "-var", "x=1"]` for every sufficient
recursion depth. -/
theorem c7_alias_expansion :
    (∀ (aliases : List (String × String)) (fuel : Nat) (a : String) (rest : List String),
        lookupAlias aliases a = "" → parseAliases aliases fuel (a :: rest) = a :: rest) ∧
      (∀ (aliases : List (String × String)) (fuel : Nat) (a : String) (rest : List String),
        lookupAlias aliases a ≠ "" →
          parseAliases aliases (fuel + 1) (a :: rest) =
            parseAliases aliases fuel (tokenizeAliasValue (lookupAlias aliases a)) ++ rest) ∧
      (∀ fuel : Nat,
        parseAliases [("deploy", "apply -auto-approve")] (fuel + 2) ["deploy", "-var", "x=1"] =
          ["apply", "-auto-approve", "-var", "x=1"]) := by
  have hnone : ∀ (aliases : List (String × String)) (fuel : Nat) (a : String)
      (rest : List String),
      lookupAlias aliases a = "" → parseAliases aliases fuel (a :: rest) = a :: rest := by
    intro aliases fuel a rest h
    cases fuel with
    | zero => rfl
    | succ n => simp [parseAliases, h]
  have hsome : ∀ (aliases : List (String × String)) (fuel : Nat) (a : String)
      (rest : List String),
      lookupAlias aliases a ≠ "" →
        parseAliases aliases (fuel + 1) (a :: rest) =
          parseAliases aliases fuel (tokenizeAliasValue (lookupAlias aliases a)) ++ rest := by
    intro aliases fuel a rest h
    simp [parseAliases, h]
  refine ⟨hnone, hsome, ?_⟩
  intro fuel
  rw [hsome [("deploy", "apply -auto-approve")] (fuel + 1) "deploy" ["-var", "x=1"]
      (by decide)]
  have e1 : tokenizeAliasValue (lookupAlias [("deploy", "apply -auto-approve")] "deploy") =
      "apply" :: ["-auto-approve"] := rfl
  rw [e1, hnone [("deploy", "apply -auto-approve")] (fuel + 1) "apply" ["-auto-approve"] rfl]
  rfl

/-- Witness for C7: the no-match case, the single-expansion step and the
documented example, each at concrete inputs. -/
theorem c7_alias_expansion_witness :
    parseAliases [("deploy", "apply -auto-approve")] 1 ["plan"] = ["plan"] ∧
      parseAliases [("deploy", "apply -auto-approve")] 1 ["deploy", "-var", "x=1"] =
        parseAliases [("deploy", "apply -auto-approve")] 0
          (tokenizeAliasValue (lookupAlias [("deploy", "apply -auto-approve")] "deploy")) ++
            ["-var", "x=1"] ∧
      parseAliases [("deploy", "apply -auto-approve")] 2 ["deploy", "-var", "x=1"] =
        ["apply", "-auto-approve", "-var", "x=1"] :=
  ⟨c7_alias_expansion.1 [("deploy", "apply -auto-approve")] 1 "plan" [] rfl,
   c7_alias_expansion.2.1 [("deploy", "apply -auto-approve")] 0 "deploy" ["-var", "x=1"]
     (by decide),
   c7_alias_expansion.2.2 0⟩

lemma getEnvVar_setEnvVar_same (m : List (String × String)) (k v : String) :
    getEnvVar (setEnvVar m k v) k = some v := by
  induction m with
  | nil => simp [setEnvVar, getEnvVar]
  | cons p ps ih =>
    by_cases h : p.1 = k
    · simp [setEnvVar, getEnvVar, h]
    · simp [setEnvVar, getEnvVar, h, ih]

lemma getEnvVar_setEnvVar_diff (m : List (String × String)) (k v k2 : String)
    (h : k2 ≠ k) : getEnvVar (setEnvVar m k v) k2 = getEnvVar m k2 := by
  induction m with
  | nil =>
    have : k ≠ k2 := fun hh => h hh.symm
    simp [setEnvVar, getEnvVar, this]
  | cons p ps ih =>
    by_cases hp : p.1 = k
    · have hkk2 : ¬k = k2 := fun hh => h hh.symm
      simp [setEnvVar, getEnvVar, hp, hkk2]
    · by_cases hq : p.1 = k2 <;> simp [setEnvVar, getEnvVar, hp, hq, h, ih]

lemma credEnv_fold_lookup (creds : Creds) (region : String) (m : List (String × String)) :
    ∀ p ∈ credEnvPairs creds region,
      getEnvVar ((credEnvPairs creds region).foldl (fun acc q => setEnvVar acc q.1 q.2) m)
        p.1 = some p.2 := by
  intro p hp
  have hfold : (credEnvPairs creds region).foldl (fun acc q => setEnvVar acc q.1 q.2) m =
      setEnvVar (setEnvVar (setEnvVar (setEnvVar m "AWS_ACCESS_KEY_ID" creds.accessKeyID)
        "AWS_SECRET_ACCESS_KEY" creds.secretAccessKey) "AWS_SESSION_TOKEN" creds.sessionToken)
        "AWS_REGION" region := rfl
  rw [hfold]
  simp only [credEnvPairs, List.mem_cons, List.not_mem_nil, or_false] at hp
  rcases hp with rfl | rfl | rfl | rfl
  · show getEnvVar _ "AWS_ACCESS_KEY_ID" = some creds.accessKeyID
    rw [getEnvVar_setEnvVar_diff _ _ _ _ (by decide),
      getEnvVar_setEnvVar_diff _ _ _ _ (by decide),
      getEnvVar_setEnvVar_diff _ _ _ _ (by decide),
      getEnvVar_setEnvVar_same]
  · show getEnvVar _ "AWS_SECRET_ACCESS_KEY" = some creds.secretAccessKey
    rw [getEnvVar_setEnvVar_diff _ _ _ _ (by decide),
      getEnvVar_setEnvVar_diff _ _ _ _ (by decide),
      getEnvVar_setEnvVar_same]
  · show getEnvVar _ "AWS_SESSION_TOKEN" = some creds.sessionToken
    rw [getEnvVar_setEnvVar_diff _ _ _ _ (by decide),
      getEnvVar_setEnvVar_same]
  · show getEnvVar _ "AWS_REGION" = some region
    rw [getEnvVar_setEnvVar_same]

/-- Claim C10: when `InitAWS` succeeds, the four credential keys are
exported to the process environment; the configuration's `Environment`
mapping receives them exactly when the config-dump flag is NOT set, and is
left untouched when it is set — so a dumped configuration never receives
the session credentials. -/
theorem c10_config_dump_credentials (w : AwsWorld) (cached : Option AwsCfg)
    (configDump : Bool) (osEnv cfgEnv : List (String × String))
    (awsCfg : AwsCfg) (cacheAfter : Option AwsCfg) (creds : Creds)
    (hget : getAwsConfig w cached 0 = (.ok awsCfg, cacheAfter))
    (hcreds : awsCfg.creds = .ok creds) :
    ∃ out : InitAWSOutcome,
      InitAWS w cached configDump osEnv cfgEnv = .ok out ∧
        (configDump = true → out.cfgEnv = cfgEnv) ∧
        (configDump = false →
          ∀ p ∈ credEnvPairs creds awsCfg.region, getEnvVar out.cfgEnv p.1 = some p.2) ∧
        (∀ p ∈ credEnvPairs creds awsCfg.region, getEnvVar out.osEnv p.1 = some p.2) := by
  refine ⟨⟨(credEnvPairs creds awsCfg.region).foldl (fun m p => setEnvVar m p.1 p.2)
      (unsetEnvVar (unsetEnvVar osEnv "AWS_PROFILE") "AWS_DEFAULT_PROFILE"),
    if configDump then cfgEnv
    else (credEnvPairs creds awsCfg.region).foldl (fun m p => setEnvVar m p.1 p.2) cfgEnv,
    cacheAfter⟩, ?_, ?_, ?_, ?_⟩
  · simp [InitAWS, hget, hcreds]
  · intro h
    simp [h]
  · intro h
    simp only [h, if_neg Bool.false_ne_true]
    exact credEnv_fold_lookup creds awsCfg.region cfgEnv
  · exact credEnv_fold_lookup creds awsCfg.region _

/-- Witness for C10 in the config-dump case at a concrete world whose
session resolves successfully. -/
theorem c10_config_dump_credentials_witness :
    ∃ out : InitAWSOutcome,
      InitAWS plainWorld none true [("AWS_PROFILE", "dev")] [("TGF_LOG", "debug")] = .ok out ∧
        (true = true → out.cfgEnv = [("TGF_LOG", "debug")]) ∧
        (true = false →
          ∀ p ∈ credEnvPairs ⟨"AKIAEXAMPLE", "SECRETEXAMPLE", "TOKENEXAMPLE", false, 0⟩
              "us-east-1",
            getEnvVar out.cfgEnv p.1 = some p.2) ∧
        (∀ p ∈ credEnvPairs ⟨"AKIAEXAMPLE", "SECRETEXAMPLE", "TOKENEXAMPLE", false, 0⟩
            "us-east-1",
          getEnvVar out.osEnv p.1 = some p.2) :=
  c10_config_dump_credentials plainWorld none true [("AWS_PROFILE", "dev")]
    [("TGF_LOG", "debug")] ⟨"us-east-1", .ok ⟨"AKIAEXAMPLE", "SECRETEXAMPLE", "TOKENEXAMPLE", false, 0⟩⟩
    (some ⟨"us-east-1", .ok ⟨"AKIAEXAMPLE", "SECRETEXAMPLE", "TOKENEXAMPLE", false, 0⟩⟩)
    ⟨"AKIAEXAMPLE", "SECRETEXAMPLE", "TOKENEXAMPLE", false, 0⟩ rfl rfl

end TGF
